import Mathlib

/-!
Verification of the scoped-temporary-resource and interior-mutability core of
the rs-myTools utility library (src/io.rs and src/borrow.rs), via a shallow
embedding.  The file system is modelled as an association list from paths to
contents together with two failure oracles standing for platform-level write
and remove failures; the ambient clock is an integer number of nanoseconds
relative to the Unix epoch (negative readings stand for a clock set before
the epoch).  Reference-cell state is modelled with an explicit borrow flag,
and mutable references produced by the field splitter are modelled as lenses.
-/

namespace MyTools

/-! ## File system model (for src/io.rs) -/

abbrev Path := String

abbrev Content := String

/-- Platform I/O error kinds relevant to the modelled operations. -/
inductive IoError where
  | notFound
  | accessDenied
deriving DecidableEq

/-- A file system: files as an association list plus failure oracles for
platform-level write and remove failures. -/
structure FS where
  files : List (Path × Content)
  writeFails : Path → Bool
  removeFails : Path → Bool

/-- Remove every entry for a path from the file list. -/
def eraseEntry (l : List (Path × Content)) (p : Path) : List (Path × Content) :=
  l.filter (fun e => e.1 != p)

/-- Look up the contents of a file, if present. -/
def FS.lookup (fs : FS) (p : Path) : Option Content :=
  fs.files.lookup p

/-- Model of `std::fs::write`: create or truncate the file with the given
contents, failing when the platform refuses the write. -/
def FS.writeFile (fs : FS) (p : Path) (c : Content) : Except IoError FS :=
  if fs.writeFails p then .error .accessDenied
  else .ok (FS.mk ((p, c) :: eraseEntry fs.files p) fs.writeFails fs.removeFails)

/-- Model of `std::fs::File::create`: creates the file, truncating it to
empty contents if it already exists. -/
def FS.createFile (fs : FS) (p : Path) : Except IoError FS :=
  fs.writeFile p ""

/-- Model of `std::fs::File::open` followed by reading all contents: fails
with `notFound` when the file does not exist. -/
def FS.openRead (fs : FS) (p : Path) : Except IoError Content :=
  match fs.lookup p with
  | some c => .ok c
  | none => .error .notFound

/-- Model of `std::fs::remove_file`: fails when the platform refuses the
removal or when the file does not exist. -/
def FS.removeFile (fs : FS) (p : Path) : Except IoError FS :=
  if fs.removeFails p then .error .accessDenied
  else
    match fs.lookup p with
    | some _ => .ok (FS.mk (eraseEntry fs.files p) fs.writeFails fs.removeFails)
    | none => .error .notFound

/-! ## TempFile (src/io.rs, lines 129-179) -/

/-- Model of `SystemTime::now().duration_since(UNIX_EPOCH)`: succeeds with
the nanosecond count when the clock is at or after the epoch. -/
def durationSinceEpoch (now : Int) : Except Unit Nat :=
  if 0 ≤ now then .ok now.toNat else .error ()

/-- Model of the `uuid` helper: `unwrap_or_default` maps a pre-epoch clock
reading to zero, and the reading is rendered in lowercase hexadecimal as
Rust `format \x7b:x\x7d` does. -/
def uuid (now : Int) : String :=
  String.mk (Nat.toDigits 16 ((durationSinceEpoch now).toOption.getD 0))

/-- A temporary file handle: it records the backing path. -/
structure TempFile where
  path : Path

/-- The path generated by `TempFile::new`: the temp directory joined with
`tmp-` followed by the `uuid` rendering of the clock reading. -/
def tempPath (tempDir : Path) (now : Int) : Path :=
  tempDir ++ "/" ++ ("tmp-" ++ uuid now)

/-- Model of `TempFile::new`: writes the optional content to the generated
path (or creates an empty file), propagating any write failure. -/
def TempFile.new (tempDir : Path) (now : Int) (content : Option Content)
    (fs : FS) : Except IoError (TempFile × FS) :=
  match content with
  | some c =>
    (fs.writeFile (tempPath tempDir now) c).map
      (fun fs2 => (TempFile.mk (tempPath tempDir now), fs2))
  | none =>
    (fs.createFile (tempPath tempDir now)).map
      (fun fs2 => (TempFile.mk (tempPath tempDir now), fs2))

/-- Model of `TempFile::open_read` (`File::open` on the stored path). -/
def TempFile.openRead (tf : TempFile) (fs : FS) : Except IoError Content :=
  fs.openRead tf.path

/-- Model of `TempFile::open_write` (`File::create` on the stored path). -/
def TempFile.openWrite (tf : TempFile) (fs : FS) : Except IoError FS :=
  fs.createFile tf.path

/-- Model of `impl Drop for TempFile`: one best-effort removal whose failure
is discarded (`let _ = fs::remove_file(..)`), leaving the file system as it
was when removal fails. -/
def TempFile.drop (tf : TempFile) (fs : FS) : FS :=
  match fs.removeFile tf.path with
  | .ok fs2 => fs2
  | .error _ => fs

/-! ## SelfRef: runtime-checked interior-mutability cell (src/borrow.rs) -/

/-- The borrow state of a `RefCell`: no borrow, `n` shared borrows, or one
exclusive borrow. -/
inductive BorrowFlag where
  | idle
  | reading (n : Nat)
  | writing
deriving DecidableEq

/-- State of a `SelfRef<T>`: the contained value and the borrow flag of the
underlying `RefCell`. -/
structure SelfRef (T : Type) where
  value : T
  flag : BorrowFlag

/-- Model of `SelfRef::new`. -/
def SelfRef.new {T : Type} (v : T) : SelfRef T :=
  SelfRef.mk v .idle

/-- Model of `SelfRef::borrow`: acquire a shared view; `none` stands for the
panic raised when an exclusive view is outstanding. -/
def SelfRef.borrow {T : Type} (st : SelfRef T) : Option (SelfRef T) :=
  match st.flag with
  | .writing => none
  | .reading n => some (SelfRef.mk st.value (.reading (n + 1)))
  | .idle => some (SelfRef.mk st.value (.reading 1))

/-- Model of `SelfRef::borrow_mut`: acquire an exclusive view; `none` stands
for the panic raised when any view is outstanding. -/
def SelfRef.borrowMut {T : Type} (st : SelfRef T) : Option (SelfRef T) :=
  match st.flag with
  | .idle => some (SelfRef.mk st.value .writing)
  | .reading _ => none
  | .writing => none

/-- Dropping one shared view guard: decrement the reader count. -/
def SelfRef.releaseShared {T : Type} (st : SelfRef T) : SelfRef T :=
  match st.flag with
  | .reading 1 => SelfRef.mk st.value .idle
  | .reading (n + 2) => SelfRef.mk st.value (.reading (n + 1))
  | _ => st

/-- Dropping the exclusive view guard: clear the borrow flag. -/
def SelfRef.releaseMut {T : Type} (st : SelfRef T) : SelfRef T :=
  match st.flag with
  | .writing => SelfRef.mk st.value .idle
  | _ => st

/-- Model of `SelfRef::with`: acquire a shared view, run `f`, and release
the view; `f` returning `.error` models an abrupt failure inside `f`, whose
unwinding still drops the guard. -/
def SelfRef.withVal {T E R : Type} (st : SelfRef T) (f : T → Except E R) :
    Option (SelfRef T × Except E R) :=
  match st.borrow with
  | none => none
  | some st1 =>
    match f st1.value with
    | .ok r => some (st1.releaseShared, .ok r)
    | .error e => some (st1.releaseShared, .error e)

/-- Model of `SelfRef::with_mut`: acquire the exclusive view, run `f` (which
may mutate the value and may fail abruptly), and release the view in every
case. -/
def SelfRef.withMut {T E R : Type} (st : SelfRef T) (f : T → Except E (T × R)) :
    Option (SelfRef T × Except E R) :=
  match st.borrowMut with
  | none => none
  | some st1 =>
    match f st1.value with
    | .ok (v2, r) => some (SelfRef.releaseMut (SelfRef.mk v2 st1.flag), .ok r)
    | .error e => some (st1.releaseMut, .error e)

/-! ## MutShared: copy-variant cell (src/borrow.rs, lines 163-187) -/

/-- Model of `MutShared<T>`, a `Cell<T>` holding one copyable value. -/
structure MutShared (T : Type) where
  cellVal : T

/-- Model of `MutShared::new`. -/
def MutShared.new {T : Type} (v : T) : MutShared T :=
  MutShared.mk v

/-- Model of `MutShared::get`. -/
def MutShared.get {T : Type} (c : MutShared T) : T :=
  c.cellVal

/-- Model of `MutShared::set`. -/
def MutShared.set {T : Type} (_ : MutShared T) (v : T) : MutShared T :=
  MutShared.mk v

/-- Model of `MutShared::update`: read the old value, apply `f`, store. -/
def MutShared.update {T : Type} (c : MutShared T) (f : T → T) : MutShared T :=
  c.set (f c.get)

/-- One call in a single-threaded trace against a `MutShared` cell. -/
inductive CellOp (T : Type) where
  | setOp (v : T)
  | getOp

/-- Run a trace of `set`/`get` calls against a cell, using the modelled
source operations; `get` does not change the cell. -/
def runCell {T : Type} (c : MutShared T) : List (CellOp T) → MutShared T
  | [] => c
  | .setOp v :: rest => runCell (c.set v) rest
  | .getOp :: rest => runCell c rest

/-- Specification-side reading of a trace: the value passed to the most
recent `set`, or the initial value when no `set` occurred. -/
def mostRecentSet {T : Type} (init : T) : List (CellOp T) → T
  | [] => init
  | .setOp v :: rest => mostRecentSet v rest
  | .getOp :: rest => mostRecentSet init rest

/-! ## SplitBorrow and FieldSplit (src/borrow.rs, lines 74-124) -/

/-- A mutable reference to a component of `T`, modelled as a lens: how to
read the component and how to write it back into the parent. -/
structure Lens (T U : Type) where
  get : T → U
  set : T → U → T

/-- The reference to the first tuple field produced by `split`. -/
def fstLens {T U : Type} : Lens (T × U) T :=
  Lens.mk Prod.fst (fun p v => (v, p.2))

/-- The reference to the second tuple field produced by `split`. -/
def sndLens {T U : Type} : Lens (T × U) U :=
  Lens.mk Prod.snd (fun p u => (p.1, u))

/-- Model of `impl SplitBorrow for (T, U)`: `split` hands out the two
disjoint field references of the pair. -/
def splitPair (T U : Type) : Lens (T × U) T × Lens (T × U) U :=
  (fstLens, sndLens)

/-- Model of `FieldSplit<T>`: it owns the exclusive borrow of the parent. -/
structure FieldSplit (T : Type) where
  parent : T

/-- Reading through the reference returned by `FieldSplit::field(proj)`. -/
def FieldSplit.fieldRead {T U : Type} (s : FieldSplit T) (proj : Lens T U) : U :=
  proj.get s.parent

/-- Writing through the reference returned by `FieldSplit::field(proj)`. -/
def FieldSplit.fieldWrite {T U : Type} (s : FieldSplit T) (proj : Lens T U)
    (v : U) : FieldSplit T :=
  FieldSplit.mk (proj.set s.parent v)

/-- Two projections are disjoint when writing through either one leaves the
component seen by the other unchanged. -/
def Lens.Disjoint {T A B : Type} (l1 : Lens T A) (l2 : Lens T B) : Prop :=
  (∀ s v, l2.get (l1.set s v) = l2.get s) ∧ (∀ s w, l1.get (l2.set s w) = l1.get s)

/-! ## Concrete instances used by witness theorems -/

/-- A failure oracle that never fails. -/
def noFail : Path → Bool := fun _ => false

/-- An empty, fully-operational file system. -/
def fsEmpty : FS := FS.mk [] noFail noFail

/-- A file system already holding one temp file. -/
def fsHello : FS := FS.mk [("T/tmp-ff", "hello")] noFail noFail

/-- The incrementing callback of the claimed `with_mut` scenario. -/
def incOk : Nat → Except Unit (Nat × Unit) := fun v => .ok (v + 1, ())

/-- The reading callback of the claimed `with` scenario. -/
def readOk : Nat → Except Unit Nat := fun v => .ok v

/-! ## Helper lemmas about the association-list file store -/

theorem lookup_erase_self (l : List (Path × Content)) (p : Path) :
    (eraseEntry l p).lookup p = none := by
  induction l with
  | nil => rfl
  | cons e rest ih =>
    by_cases h : e.1 = p
    · simpa only [eraseEntry, List.filter_cons, h, bne_self_eq_false,
        Bool.false_eq_true, if_false] using ih
    · have hf : (e.1 != p) = true := by simp [h]
      have hb : (p == e.1) = false := by simp [Ne.symm h]
      simp only [eraseEntry, List.filter_cons, hf, if_true, List.lookup, hb]
      exact ih

theorem lookup_erase_other (l : List (Path × Content)) (p q : Path)
    (hq : q ≠ p) : (eraseEntry l p).lookup q = l.lookup q := by
  induction l with
  | nil => rfl
  | cons e rest ih =>
    by_cases h : e.1 = p
    · have hf : (e.1 != p) = false := by simp [h]
      have hb : (q == e.1) = false := by simp [h, hq]
      simp only [eraseEntry, List.filter_cons, hf, Bool.false_eq_true, if_false,
        List.lookup, hb]
      exact ih
    · have hf : (e.1 != p) = true := by simp [h]
      cases hb : q == e.1 with
      | true =>
        simp only [eraseEntry, List.filter_cons, hf, if_true, List.lookup, hb]
      | false =>
        simp only [eraseEntry, List.filter_cons, hf, if_true, List.lookup, hb]
        exact ih

theorem writeFile_ok_lookup (fs : FS) (p : Path) (c : Content) (fs2 : FS)
    (h : fs.writeFile p c = .ok fs2) : fs2.lookup p = some c := by
  unfold FS.writeFile at h
  by_cases hw : fs.writeFails p
  · rw [if_pos hw] at h; cases h
  · rw [if_neg hw] at h
    injection h with h2
    subst h2
    simp [FS.lookup, List.lookup]

theorem writeFile_ok_lookup_other (fs : FS) (p : Path) (c : Content) (fs2 : FS)
    (q : Path) (hq : q ≠ p) (h : fs.writeFile p c = .ok fs2) :
    fs2.lookup q = fs.lookup q := by
  unfold FS.writeFile at h
  by_cases hw : fs.writeFails p
  · rw [if_pos hw] at h; cases h
  · rw [if_neg hw] at h
    injection h with h2
    subst h2
    have hb : (q == p) = false := by simp [hq]
    simp only [FS.lookup, List.lookup, hb]
    exact lookup_erase_other fs.files p q hq

theorem removeFile_ok_lookup (fs : FS) (p : Path) (fs2 : FS)
    (h : fs.removeFile p = .ok fs2) : fs2.lookup p = none := by
  unfold FS.removeFile at h
  by_cases hr : fs.removeFails p
  · rw [if_pos hr] at h; cases h
  · rw [if_neg hr] at h
    cases hl : fs.lookup p with
    | none => rw [hl] at h; cases h
    | some c =>
      rw [hl] at h
      injection h with h2
      subst h2
      exact lookup_erase_self fs.files p

theorem new_some (td : Path) (now : Int) (c : Content) (fs : FS) :
    TempFile.new td now (some c) fs =
      (fs.writeFile (tempPath td now) c).map
        (fun fs2 => (TempFile.mk (tempPath td now), fs2)) := rfl

theorem new_none (td : Path) (now : Int) (fs : FS) :
    TempFile.new td now none fs =
      (fs.writeFile (tempPath td now) "").map
        (fun fs2 => (TempFile.mk (tempPath td now), fs2)) := rfl

theorem writeFile_fails (fs : FS) (p : Path) (c : Content)
    (hw : fs.writeFails p = true) :
    fs.writeFile p c = .error .accessDenied := by
  unfold FS.writeFile
  rw [if_pos hw]

theorem writeFile_succeeds (fs : FS) (p : Path) (c : Content)
    (hw : fs.writeFails p = false) :
    fs.writeFile p c =
      .ok (FS.mk ((p, c) :: eraseEntry fs.files p) fs.writeFails fs.removeFails) := by
  unfold FS.writeFile
  rw [if_neg (by simp [hw])]

/-! ## Claim theorems about TempFile -/

/-- Claim C1: dropping a `TempFile` performs one best-effort removal of the
backing file: when the removal succeeds the drop returns exactly the file
system produced by that removal, the backing path no longer exists, and a
subsequent open for reading fails with an I/O error; when the removal fails
the failure is discarded and the file system is returned unchanged, so
destruction never propagates an error. -/
theorem C1_drop_removes_silently (fs : FS) (tf : TempFile) :
    (∀ fs2, fs.removeFile tf.path = .ok fs2 →
      tf.drop fs = fs2 ∧ fs2.lookup tf.path = none ∧
      tf.openRead fs2 = .error .notFound) ∧
    (∀ e, fs.removeFile tf.path = .error e → tf.drop fs = fs) := by
  constructor
  · intro fs2 h
    have hdrop : tf.drop fs = fs2 := by
      unfold TempFile.drop
      rw [h]
    have hlook := removeFile_ok_lookup fs tf.path fs2 h
    refine ⟨hdrop, hlook, ?_⟩
    unfold TempFile.openRead FS.openRead
    rw [hlook]
  · intro e h
    unfold TempFile.drop
    rw [h]

/-- Witness for C1 at a concrete one-file file system. -/
theorem C1_drop_removes_silently_wit :
    (TempFile.mk "T/tmp-ff").drop fsHello = FS.mk [] noFail noFail ∧
    (FS.mk [] noFail noFail).lookup "T/tmp-ff" = none ∧
    (TempFile.mk "T/tmp-ff").openRead (FS.mk [] noFail noFail) =
      .error .notFound :=
  (C1_drop_removes_silently fsHello (TempFile.mk "T/tmp-ff")).1
    (FS.mk [] noFail noFail) rfl

/-- Claim C2: creating a `TempFile` with initial content `c` and then
opening it for reading yields exactly `c`; a platform failure of the
underlying write in `new` is propagated to the caller unchanged, and
`open_read` / `open_write` return the platform result directly, so errors
are never swallowed at those call sites. -/
theorem C2_roundtrip_propagation (td : Path) (now : Int) (c : Content) (fs : FS) :
    (∀ tf fs2, TempFile.new td now (some c) fs = .ok (tf, fs2) →
      tf.openRead fs2 = .ok c) ∧
    (∀ e, fs.writeFile (tempPath td now) c = .error e →
      TempFile.new td now (some c) fs = .error e) ∧
    (∀ tf : TempFile, tf.openRead fs = fs.openRead tf.path ∧
      tf.openWrite fs = fs.createFile tf.path) := by
  refine ⟨?_, ?_, fun tf => ⟨rfl, rfl⟩⟩
  · intro tf fs2 h
    rw [new_some] at h
    cases hw : fs.writeFile (tempPath td now) c with
    | error e =>
      rw [hw] at h
      simp [Except.map] at h
    | ok fsw =>
      rw [hw] at h
      simp only [Except.map] at h
      injection h with h2
      injection h2 with h3 h4
      subst h3
      subst h4
      unfold TempFile.openRead FS.openRead
      rw [writeFile_ok_lookup fs (tempPath td now) c fsw hw]
  · intro e h
    rw [new_some, h]
    rfl

/-- Witness for C2: round trip of the content `"hello"`. -/
theorem C2_roundtrip_propagation_wit :
    (TempFile.mk "T/tmp-ff").openRead
      (FS.mk [("T/tmp-ff", "hello")] noFail noFail) = .ok "hello" :=
  (C2_roundtrip_propagation "T" 255 "hello" fsEmpty).1
    (TempFile.mk "T/tmp-ff") (FS.mk [("T/tmp-ff", "hello")] noFail noFail) rfl

/-- Claim C7: a successful `TempFile::new` names the file by joining the
temporary directory with `tmp-` followed by the hexadecimal rendering of
the nanosecond clock reading, stores the given content there, and touches
no other path, so exactly one file is created. -/
theorem C7_unique_timestamp_name (td : Path) (now : Int)
    (content : Option Content) (fs : FS) (tf : TempFile) (fs2 : FS)
    (h : TempFile.new td now content fs = .ok (tf, fs2)) :
    tf.path = td ++ "/" ++ ("tmp-" ++ uuid now) ∧
    uuid now = String.mk (Nat.toDigits 16 ((durationSinceEpoch now).toOption.getD 0)) ∧
    fs2.lookup tf.path = some (content.getD "") ∧
    ∀ q, q ≠ tf.path → fs2.lookup q = fs.lookup q := by
  cases content with
  | some c =>
    rw [new_some] at h
    cases hw : fs.writeFile (tempPath td now) c with
    | error e =>
      rw [hw] at h
      simp [Except.map] at h
    | ok fsw =>
      rw [hw] at h
      simp only [Except.map] at h
      injection h with h2
      injection h2 with h3 h4
      subst h3
      subst h4
      refine ⟨rfl, rfl, ?_, ?_⟩
      · exact writeFile_ok_lookup fs (tempPath td now) c fsw hw
      · intro q hq
        exact writeFile_ok_lookup_other fs (tempPath td now) c fsw q hq hw
  | none =>
    rw [new_none] at h
    cases hw : fs.writeFile (tempPath td now) "" with
    | error e =>
      rw [hw] at h
      simp [Except.map] at h
    | ok fsw =>
      rw [hw] at h
      simp only [Except.map] at h
      injection h with h2
      injection h2 with h3 h4
      subst h3
      subst h4
      refine ⟨rfl, rfl, ?_, ?_⟩
      · exact writeFile_ok_lookup fs (tempPath td now) "" fsw hw
      · intro q hq
        exact writeFile_ok_lookup_other fs (tempPath td now) "" fsw q hq hw

/-- Witness for C7 at clock reading 255 (hexadecimal `ff`). -/
theorem C7_unique_timestamp_name_wit :
    (TempFile.mk "T/tmp-ff").path = "T" ++ "/" ++ ("tmp-" ++ uuid 255) ∧
    (FS.mk [("T/tmp-ff", "hello")] noFail noFail).lookup
      (TempFile.mk "T/tmp-ff").path = some ((some "hello").getD "") :=
  have h := C7_unique_timestamp_name "T" 255 (some "hello") fsEmpty
    (TempFile.mk "T/tmp-ff") (FS.mk [("T/tmp-ff", "hello")] noFail noFail) rfl
  ⟨h.1, h.2.2.1⟩

/-- Claim C9: `open_write` re-creates the backing file, truncating it to
empty contents, so previous content is lost and a subsequent read yields
the empty content even when nothing is written through the handle. -/
theorem C9_openwrite_truncates (fs : FS) (tf : TempFile) :
    ∀ fs2, tf.openWrite fs = .ok fs2 →
      fs2.lookup tf.path = some "" ∧ tf.openRead fs2 = .ok "" := by
  intro fs2 h
  unfold TempFile.openWrite FS.createFile at h
  have hl := writeFile_ok_lookup fs tf.path "" fs2 h
  refine ⟨hl, ?_⟩
  unfold TempFile.openRead FS.openRead
  rw [hl]

/-- Witness for C9: truncating a file that held `"hello"`. -/
theorem C9_openwrite_truncates_wit :
    (FS.mk [("T/tmp-ff", "")] noFail noFail).lookup "T/tmp-ff" = some "" ∧
    (TempFile.mk "T/tmp-ff").openRead (FS.mk [("T/tmp-ff", "")] noFail noFail) =
      .ok "" :=
  C9_openwrite_truncates fsHello (TempFile.mk "T/tmp-ff")
    (FS.mk [("T/tmp-ff", "")] noFail noFail) rfl

/-- Claim C10: name generation is total and never fails: a pre-epoch clock
reading silently defaults to zero and yields exactly the name `tmp-0`, and
`TempFile::new` can fail only with the I/O error of the underlying write or
create, succeeding whenever the platform write succeeds. -/
theorem C10_uuid_total (now : Int) (td : Path) (content : Option Content) (fs : FS) :
    (now < 0 → "tmp-" ++ uuid now = "tmp-0") ∧
    (∀ e, TempFile.new td now content fs = .error e →
      fs.writeFails (tempPath td now) = true ∧ e = .accessDenied) ∧
    (fs.writeFails (tempPath td now) = false →
      ∃ tf fs2, TempFile.new td now content fs = .ok (tf, fs2)) := by
  refine ⟨?_, ?_, ?_⟩
  · intro hneg
    have h0 : uuid now = "0" := by
      unfold uuid durationSinceEpoch
      rw [if_neg (by omega)]
      rfl
    rw [h0]
    decide
  · intro e h
    cases content with
    | some c =>
      rw [new_some] at h
      cases hw : fs.writeFails (tempPath td now) with
      | false =>
        rw [writeFile_succeeds fs (tempPath td now) c hw] at h
        simp [Except.map] at h
      | true =>
        rw [writeFile_fails fs (tempPath td now) c hw] at h
        simp only [Except.map] at h
        injection h with h2
        exact ⟨rfl, h2.symm⟩
    | none =>
      rw [new_none] at h
      cases hw : fs.writeFails (tempPath td now) with
      | false =>
        rw [writeFile_succeeds fs (tempPath td now) "" hw] at h
        simp [Except.map] at h
      | true =>
        rw [writeFile_fails fs (tempPath td now) "" hw] at h
        simp only [Except.map] at h
        injection h with h2
        exact ⟨rfl, h2.symm⟩
  · intro hw
    cases content with
    | some c =>
      refine ⟨TempFile.mk (tempPath td now),
        FS.mk ((tempPath td now, c) :: eraseEntry fs.files (tempPath td now))
          fs.writeFails fs.removeFails, ?_⟩
      rw [new_some, writeFile_succeeds fs (tempPath td now) c hw]
      rfl
    | none =>
      refine ⟨TempFile.mk (tempPath td now),
        FS.mk ((tempPath td now, "") :: eraseEntry fs.files (tempPath td now))
          fs.writeFails fs.removeFails, ?_⟩
      rw [new_none, writeFile_succeeds fs (tempPath td now) "" hw]
      rfl

/-- Witness for C10 at clock reading `-1` (before the Unix epoch). -/
theorem C10_uuid_total_wit :
    "tmp-" ++ uuid (-1) = "tmp-0" ∧
    ∃ tf fs2, TempFile.new "T" (-1) none fsEmpty = .ok (tf, fs2) :=
  have h := C10_uuid_total (-1) "T" none fsEmpty
  ⟨h.1 (by decide), h.2.2 rfl⟩

/-! ## Claim theorems about the borrow cells -/

theorem withVal_idle_ne {T E R : Type} (v : T) (g : T → Except E R) :
    (SelfRef.mk v .idle).withVal g ≠ none := by
  unfold SelfRef.withVal SelfRef.borrow
  cases hg : g v <;> simp [hg]

theorem withMut_idle_ne {T E R : Type} (v : T) (f : T → Except E (T × R)) :
    (SelfRef.mk v .idle).withMut f ≠ none := by
  unfold SelfRef.withMut SelfRef.borrowMut
  cases hf : f v <;> simp [hf]

/-- Claim C3: `borrow_mut` on a cell with any outstanding view (shared or
exclusive) panics at the moment of the request; once the outstanding view
is released by ending its scope, a subsequent exclusive borrow succeeds. -/
theorem C3_borrow_mut_conflict {T : Type} (st : SelfRef T) :
    (st.flag ≠ .idle → st.borrowMut = none) ∧
    (∀ st1, st.borrowMut = some st1 →
      st1.releaseMut.borrowMut = some (SelfRef.mk st.value .writing)) ∧
    (st.flag = .idle → ∀ st1, st.borrow = some st1 →
      st1.borrowMut = none ∧
      st1.releaseShared.borrowMut = some (SelfRef.mk st.value .writing)) := by
  obtain ⟨v, f⟩ := st
  refine ⟨?_, ?_, ?_⟩
  · intro hne
    cases f with
    | idle => exact absurd rfl hne
    | reading n => rfl
    | writing => rfl
  · intro st1 h
    cases f with
    | idle =>
      injection h with h2
      subst h2
      rfl
    | reading n => cases h
    | writing => cases h
  · intro hf st1 h
    simp only at hf
    subst hf
    injection h with h2
    subst h2
    exact ⟨rfl, rfl⟩

/-- Witness for C3 at concrete cells holding `5`. -/
theorem C3_borrow_mut_conflict_wit :
    (SelfRef.mk (5 : Nat) (.reading 1)).borrowMut = none ∧
    (SelfRef.mk (5 : Nat) .writing).releaseMut.borrowMut =
      some (SelfRef.mk 5 .writing) ∧
    ((SelfRef.mk (5 : Nat) (.reading 1)).borrowMut = none ∧
      (SelfRef.mk (5 : Nat) (.reading 1)).releaseShared.borrowMut =
        some (SelfRef.mk 5 .writing)) :=
  ⟨(C3_borrow_mut_conflict (SelfRef.mk 5 (.reading 1))).1 (by decide),
   (C3_borrow_mut_conflict (SelfRef.mk 5 .idle)).2.1
     (SelfRef.mk 5 .writing) rfl,
   (C3_borrow_mut_conflict (SelfRef.mk 5 .idle)).2.2 rfl
     (SelfRef.mk 5 (.reading 1)) rfl⟩

/-- Claim C4: when no borrow is outstanding, `with` and `with_mut` acquire
the matching view only for the duration of the callback and release it even
when the callback fails abruptly, so afterwards the borrow state is back to
none and a following `with` or `with_mut` succeeds; concretely, a cell
created with `10` incremented through `with_mut` then read through `with`
yields `11`. -/
theorem C4_with_releases {T E R S : Type} (st : SelfRef T)
    (f : T → Except E (T × R)) (g : T → Except E S) :
    (st.flag = .idle →
      ∃ st2 out, st.withMut f = some (st2, out) ∧ st2.flag = .idle ∧
        st2.withVal g ≠ none ∧ st2.withMut f ≠ none) ∧
    (st.flag = .idle →
      ∃ st2 out, st.withVal g = some (st2, out) ∧ st2.flag = .idle ∧
        st2.withVal g ≠ none ∧ st2.withMut f ≠ none) ∧
    ((SelfRef.new (10 : Nat)).withMut incOk =
      some (SelfRef.mk 11 .idle, .ok ()) ∧
      (SelfRef.mk (11 : Nat) .idle).withVal readOk =
        some (SelfRef.mk 11 .idle, .ok 11)) := by
  obtain ⟨v, fl⟩ := st
  refine ⟨?_, ?_, rfl, rfl⟩
  · intro h
    simp only at h
    subst h
    cases hfv : f v with
    | ok p =>
      obtain ⟨v2, r⟩ := p
      refine ⟨SelfRef.mk v2 .idle, .ok r, ?_, rfl,
        withVal_idle_ne v2 g, withMut_idle_ne v2 f⟩
      unfold SelfRef.withMut SelfRef.borrowMut
      simp [hfv, SelfRef.releaseMut]
    | error e =>
      refine ⟨SelfRef.mk v .idle, .error e, ?_, rfl,
        withVal_idle_ne v g, withMut_idle_ne v f⟩
      unfold SelfRef.withMut SelfRef.borrowMut
      simp [hfv, SelfRef.releaseMut]
  · intro h
    simp only at h
    subst h
    cases hgv : g v with
    | ok r =>
      refine ⟨SelfRef.mk v .idle, .ok r, ?_, rfl,
        withVal_idle_ne v g, withMut_idle_ne v f⟩
      unfold SelfRef.withVal SelfRef.borrow
      simp [hgv, SelfRef.releaseShared]
    | error e =>
      refine ⟨SelfRef.mk v .idle, .error e, ?_, rfl,
        withVal_idle_ne v g, withMut_idle_ne v f⟩
      unfold SelfRef.withVal SelfRef.borrow
      simp [hgv, SelfRef.releaseShared]

/-- Witness for C4 at the concrete increment scenario from value `10`. -/
theorem C4_with_releases_wit :
    (∃ st2 out, (SelfRef.new (10 : Nat)).withMut incOk = some (st2, out) ∧
      st2.flag = .idle ∧ st2.withVal readOk ≠ none ∧ st2.withMut incOk ≠ none) ∧
    (SelfRef.new (10 : Nat)).withMut incOk =
      some (SelfRef.mk 11 .idle, .ok ()) :=
  have h := C4_with_releases (SelfRef.new (10 : Nat)) incOk readOk
  ⟨h.1 rfl, h.2.2.1⟩

theorem runCell_get_eq {T : Type} (c : MutShared T) (ops : List (CellOp T)) :
    (runCell c ops).get = mostRecentSet c.get ops := by
  induction ops generalizing c with
  | nil => rfl
  | cons op rest ih =>
    cases op with
    | setOp v => exact ih (c.set v)
    | getOp => exact ih c

/-- Claim C5: after any single-threaded trace of `set`/`get` calls against
a `MutShared` cell, a `get` returns the value passed to the most recent
preceding `set`, or the creation value when no `set` occurred. -/
theorem C5_get_most_recent_set {T : Type} (init : T) (ops : List (CellOp T)) :
    (runCell (MutShared.new init) ops).get = mostRecentSet init ops :=
  runCell_get_eq (MutShared.new init) ops

/-- Claim C6: `update(f)` reads the old value, applies `f`, and stores the
result, so a following `get` returns `f` of the previous value; in
particular on a freshly created cell holding `v` it returns `f v`. -/
theorem C6_update_applies {T : Type} (c : MutShared T) (f : T → T) (v : T) :
    (c.update f).get = f c.get ∧ ((MutShared.new v).update f).get = f v :=
  ⟨rfl, rfl⟩

/-- Claim C8: the two field references handed out by `split` on a pair can
be mutated independently, each write landing in its own field and leaving
the other unchanged; likewise, for any two disjoint projections obtained
from one `FieldSplit`, writing through one leaves the field read through
the other unchanged. -/
theorem C8_split_independent {T U W A B : Type} (p : T × U) (v : T) (u : U)
    (s : FieldSplit W) (l1 : Lens W A) (l2 : Lens W B) (a : A) (b : B)
    (hdisj : Lens.Disjoint l1 l2) :
    (((splitPair T U).1.set p v).2 = p.2 ∧ ((splitPair T U).1.set p v).1 = v ∧
      ((splitPair T U).2.set p u).1 = p.1 ∧ ((splitPair T U).2.set p u).2 = u) ∧
    ((s.fieldWrite l1 a).fieldRead l2 = s.fieldRead l2 ∧
      (s.fieldWrite l2 b).fieldRead l1 = s.fieldRead l1) :=
  ⟨⟨rfl, rfl, rfl, rfl⟩, hdisj.1 s.parent a, hdisj.2 s.parent b⟩

/-- Witness for C8 at concrete pairs and the tuple-field projections. -/
theorem C8_split_independent_wit :
    ((((splitPair Nat Nat).1.set (3, 4) 5).2 = (3, 4).2 ∧
      ((splitPair Nat Nat).1.set (3, 4) 5).1 = 5 ∧
      ((splitPair Nat Nat).2.set (3, 4) 6).1 = (3, 4).1 ∧
      ((splitPair Nat Nat).2.set (3, 4) 6).2 = 6) ∧
     (((FieldSplit.mk ((1 : Nat), (2 : Nat))).fieldWrite fstLens 7).fieldRead sndLens =
        (FieldSplit.mk ((1 : Nat), (2 : Nat))).fieldRead sndLens ∧
      ((FieldSplit.mk ((1 : Nat), (2 : Nat))).fieldWrite sndLens 9).fieldRead fstLens =
        (FieldSplit.mk ((1 : Nat), (2 : Nat))).fieldRead fstLens)) :=
  C8_split_independent (3, 4) 5 6 (FieldSplit.mk (1, 2)) fstLens sndLens 7 9
    ⟨fun _ _ => rfl, fun _ _ => rfl⟩

end MyTools
